import Mathlib

/-!
Shallow embedding of the stock-analyzer screening core (src/app.py):
the retry/backoff executor `fetch_with_retry`, the per-metric getters,
the five-condition screening evaluator `check_all_conditions`, the batch
orchestrator `process_tickers_background`, and the `/analyze` input
validation.  Numeric values are modelled as rationals (`ℚ`), Python
`None` as `Option`, and Python exceptions as an explicit `PyExc` type
threaded through `Except`.
-/

namespace StockAnalyzer

/-- Python exceptions relevant to the source: `requests.HTTPError`
carrying a response status code, `requests.RequestException`, the
`TypeError` raised by an order comparison against `None`, and any other
exception. -/
inductive PyExc : Type
  | httpError (status : Nat)
  | requestException
  | typeError
  | otherExc
  deriving DecidableEq, Repr

/-- Outcome of one invocation of the zero-argument callable passed to
`fetch_with_retry`: either it returns a value or it raises. -/
inductive Outcome (α : Type) : Type
  | ok (v : α) : Outcome α
  | raise (e : PyExc) : Outcome α
  deriving DecidableEq, Repr

/-- Result of a `fetch_with_retry` run: the value returned to the caller
(`Except.error` would mean an escaped exception), the number of times the
callable was invoked, and the list of sleep durations in order. -/
structure FetchResult (α : Type) : Type where
  result : Except PyExc (Option α)
  calls : Nat
  sleeps : List ℚ
  deriving Repr

/-- One iteration added to an accumulated `FetchResult`. -/
def FetchResult.addCall (r : FetchResult α) (d : Option ℚ) : FetchResult α :=
  { result := r.result, calls := r.calls + 1,
    sleeps := match d with | none => r.sleeps | some d => d :: r.sleeps }

/-- The loop body of `fetch_with_retry` (src/app.py lines 27-64).
`truthy` models Python truthiness of the callable's return type, `f n` is
the outcome of the `n`-th invocation, `attempt` is the loop variable and
`fuel` the number of remaining iterations (`maxRetries - attempt`).
Falling out of the loop returns `None` (line 64). -/
def fetchAux (truthy : α → Bool) (f : Nat → Outcome α) (maxRetries : Nat)
    (initialDelay : ℚ) (attempt : Nat) : Nat → FetchResult α
  | 0 => ⟨Except.ok none, 0, []⟩
  | fuel + 1 =>
    match f attempt with
    | Outcome.ok result =>
      if truthy result then
        -- if result: return result
        ⟨Except.ok (some result), 1, []⟩
      else if attempt < maxRetries - 1 then
        -- no data: sleep initial_delay * (1.5 ** attempt), loop continues
        (fetchAux truthy f maxRetries initialDelay (attempt + 1) fuel).addCall
          (some (initialDelay * (3 / 2 : ℚ) ^ attempt))
      else
        -- last attempt returned no data: loop ends, falls through to line 64
        (fetchAux truthy f maxRetries initialDelay (attempt + 1) fuel).addCall none
    | Outcome.raise (PyExc.httpError status) =>
      if status = 429 then
        if attempt < maxRetries - 1 then
          -- rate limited: sleep initial_delay * (2 ** attempt), retry
          (fetchAux truthy f maxRetries initialDelay (attempt + 1) fuel).addCall
            (some (initialDelay * (2 : ℚ) ^ attempt))
        else
          -- "Max retries reached after 429 error": return None
          ⟨Except.ok none, 1, []⟩
      else
        if attempt < maxRetries - 1 then
          -- other HTTP error: sleep initial_delay, retry
          (fetchAux truthy f maxRetries initialDelay (attempt + 1) fuel).addCall
            (some initialDelay)
        else
          ⟨Except.ok none, 1, []⟩
    | Outcome.raise PyExc.requestException =>
      if attempt < maxRetries - 1 then
        (fetchAux truthy f maxRetries initialDelay (attempt + 1) fuel).addCall
          (some initialDelay)
      else
        ⟨Except.ok none, 1, []⟩
    | Outcome.raise _ =>
      -- except Exception: any remaining exception kind
      if attempt < maxRetries - 1 then
        (fetchAux truthy f maxRetries initialDelay (attempt + 1) fuel).addCall
          (some initialDelay)
      else
        ⟨Except.ok none, 1, []⟩

/-- Model of `fetch_with_retry(func, max_retries, initial_delay)` from src/app.py
lines 25-64, instrumented with the call count and sleep trace. -/
def fetch_with_retry (truthy : α → Bool) (f : Nat → Outcome α)
    (maxRetries : Nat) (initialDelay : ℚ) : FetchResult α :=
  fetchAux truthy f maxRetries initialDelay 0 maxRetries

/-- Result of one screening condition: a plain `✔️` pass, a plain `❌`
fail, or a `❌ (… Unavailable / Missing …)` fail recording missing data. -/
inductive ConditionResult : Type
  | pass
  | fail
  | failMissingData
  deriving DecidableEq, Repr

/-- The fields of the yfinance `info` dict that the evaluator reads;
absent dict keys are `none`. -/
structure StockInfo : Type where
  marketCap : Option ℚ
  currentPrice : Option ℚ
  forwardPE : Option ℚ
  targetMeanPrice : Option ℚ
  targetHighPrice : Option ℚ
  targetLowPrice : Option ℚ
  heldPercentInsiders : Option ℚ
  heldPercentInstitutions : Option ℚ
  deriving DecidableEq, Repr

/-- One Finnhub recommendation-trend record. -/
structure RecommendationRecord : Type where
  buy : Nat
  hold : Nat
  sell : Nat
  strongBuy : Nat
  strongSell : Nat
  deriving DecidableEq, Repr

/-- Model of `get_stock_data` (src/app.py lines 66-88) as provided to the
evaluator: `none` models both a failed fetch and the empty-dict fallback,
so every field read on it yields `none`. -/
def infoField (info : Option StockInfo) (f : StockInfo → Option ℚ) : Option ℚ :=
  match info with
  | none => none
  | some i => f i

/-- Model of `get_forward_PE` (src/app.py lines 90-104): returns
`info.get('forwardPE', None)` unchanged (the truthiness test there only
gates a log line). -/
def get_forward_PE (info : Option StockInfo) : Option ℚ :=
  infoField info StockInfo.forwardPE

/-- Model of `get_price_target_data` (src/app.py lines 106-119): the mean, high
and low analyst target prices, each independently optional. -/
def get_price_target_data (info : Option StockInfo) :
    Option ℚ × Option ℚ × Option ℚ :=
  match info with
  | none => (none, none, none)
  | some i => (i.targetMeanPrice, i.targetHighPrice, i.targetLowPrice)

/-- Model of `get_analyst_ratings_finnhub` (src/app.py lines 121-146) on the fetched
recommendation list; the empty list models both a `None` and an empty
fetch result (`if not recommendations`).  When `total_ratings == 0` the
buy percentage is the number `0`, not `None`. -/
def get_analyst_ratings_finnhub (recs : List RecommendationRecord) :
    Option ℚ × Nat :=
  match recs with
  | [] => (none, 0)
  | latest :: _ =>
    let total := latest.buy + latest.hold + latest.sell +
      latest.strongBuy + latest.strongSell
    let buyRatings := latest.buy + latest.strongBuy
    let buyPercentage : ℚ := if total > 0 then (buyRatings : ℚ) / total * 100 else 0
    (some buyPercentage, total)

/-- Model of `get_ownership_data` (src/app.py lines 148-172): total, insider and
institutional ownership percentages; the total is `none` when either raw
fraction is absent. -/
def get_ownership_data (insiders institutions : Option ℚ) :
    Option ℚ × Option ℚ × Option ℚ :=
  match insiders, institutions with
  | some ri, some rj => (some (ri * 100 + rj * 100), some (ri * 100), some (rj * 100))
  | ri, rj => (none, ri.map (· * 100), rj.map (· * 100))

/-- Condition 1, analyst ratings (src/app.py lines 184-197). -/
def cond1 (buyPercentage : Option ℚ) : ConditionResult :=
  match buyPercentage with
  | none => ConditionResult.failMissingData
  | some p => if p < 70 then ConditionResult.fail else ConditionResult.pass

/-- Condition 2, market cap (src/app.py lines 199-207): a missing or zero
`marketCap` is treated as 0 billions. -/
def cond2 (marketCap : Option ℚ) : ConditionResult :=
  let capBillions : ℚ :=
    match marketCap with
    | none => 0
    | some c => if c = 0 then 0 else c / 1000000000
  if capBillions < 100 then ConditionResult.fail else ConditionResult.pass

/-- Condition 3, price target spread (src/app.py lines 209-218).
`current_price` falls back to 0 when absent or falsy; the test
`mean_price is None or mean_price <= current_price * 1.15 or
low_price < current_price` short-circuits, and comparing a `None`
`low_price` against a number raises `TypeError`. -/
def cond3 (meanPrice lowPrice currentPrice : Option ℚ) :
    Except PyExc ConditionResult :=
  let current : ℚ :=
    match currentPrice with
    | none => 0
    | some c => if c = 0 then 0 else c
  match meanPrice with
  | none => Except.ok ConditionResult.fail
  | some m =>
    if m ≤ current * (23 / 20) then Except.ok ConditionResult.fail
    else
      match lowPrice with
      | none => Except.error PyExc.typeError
      | some l =>
        if l < current then Except.ok ConditionResult.fail
        else Except.ok ConditionResult.pass

/-- Condition 4, forward P/E vs benchmark (src/app.py lines 220-231). -/
def cond4 (forwardPE : Option ℚ) (benchmark : ℚ) : ConditionResult :=
  match forwardPE with
  | none => ConditionResult.failMissingData
  | some p => if benchmark ≤ p then ConditionResult.fail else ConditionResult.pass

/-- Condition 5, ownership (src/app.py lines 233-246), applied to the
total returned by `get_ownership_data`. -/
def cond5 (totalOwnership : Option ℚ) : ConditionResult :=
  match totalOwnership with
  | none => ConditionResult.failMissingData
  | some t => if t < 70 then ConditionResult.fail else ConditionResult.pass

/-- Model of `check_all_conditions` (src/app.py lines 174-251) at the level of
condition results: the five conditions in order plus the overall verdict.
The `TypeError` possible in condition 3 aborts the whole evaluation. -/
def check_all_conditions (info : Option StockInfo)
    (recs : List RecommendationRecord) (benchmark : ℚ) :
    Except PyExc (List ConditionResult × Bool) :=
  let c1 := cond1 (get_analyst_ratings_finnhub recs).1
  let c2 := cond2 (infoField info StockInfo.marketCap)
  let targets := get_price_target_data info
  match cond3 targets.1 targets.2.2 (infoField info StockInfo.currentPrice) with
  | Except.error e => Except.error e
  | Except.ok c3 =>
    let c4 := cond4 (get_forward_PE info) benchmark
    let c5 := cond5 (get_ownership_data (infoField info StockInfo.heldPercentInsiders)
      (infoField info StockInfo.heldPercentInstitutions)).1
    let conds := [c1, c2, c3, c4, c5]
    Except.ok (conds, conds.all (· = ConditionResult.pass))

/-- Job progress record as written into `analysis_status[job_id]`
(src/app.py lines 260-266, 283-284, 305-306). -/
structure RunState : Type where
  results : List (List String)
  buyTickers : List String
  allDetails : List (List String)
  current : Nat
  progress : Nat
  deriving DecidableEq, Repr

/-- The evaluator result for one ticker: the marker row, the overall
verdict, and the detail lines, as returned by `check_all_conditions`. -/
abbrev EvalResult := List String × Bool × List String

/-- The all-Fail placeholder row appended when evaluating a ticker raises
(src/app.py line 294). -/
def placeholderRow (ticker : String) : List String :=
  [ticker, "❌", "❌", "❌", "❌", "❌"]

/-- The text of an exception as interpolated into the error detail line
(src/app.py line 295). -/
def PyExc.message : PyExc → String
  | PyExc.httpError s => "HTTPError " ++ toString s
  | PyExc.requestException => "RequestException"
  | PyExc.typeError => "TypeError"
  | PyExc.otherExc => "Exception"

/-- One iteration of the `for i, ticker in enumerate(tickers)` body
(src/app.py lines 272-295): a successful evaluation appends its row and
details and advances the counters (`(i+1)*100/total` is the exact value
of `int(((i + 1) / total) * 100)`); a raised exception appends the
placeholder row plus an error detail line and leaves the counters
untouched. -/
def processStep (evalTicker : String → Except PyExc EvalResult) (total : Nat)
    (st : RunState) (i : Nat) (ticker : String) : RunState :=
  match evalTicker ticker with
  | Except.ok (row, met, det) =>
    { results := st.results ++ [row]
      buyTickers := st.buyTickers ++ (if met then [ticker] else [])
      allDetails := st.allDetails ++ [det]
      current := i + 1
      progress := (i + 1) * 100 / total }
  | Except.error e =>
    { results := st.results ++ [placeholderRow ticker]
      buyTickers := st.buyTickers
      allDetails := st.allDetails ++ [[ticker, "Error: " ++ e.message]]
      current := st.current
      progress := st.progress }

/-- The ticker loop of `process_tickers_background`. -/
def processLoop (evalTicker : String → Except PyExc EvalResult) (total : Nat)
    (i : Nat) (tickers : List String) (st : RunState) : RunState :=
  match tickers with
  | [] => st
  | t :: rest =>
    processLoop evalTicker total (i + 1) rest (processStep evalTicker total st i t)

/-- The terminal state of one background run: the saved results
(`analysis_results[job_id]`) and the final job status
(`analysis_status[job_id]`). -/
structure JobOutcome : Type where
  results : List (List String)
  buyTickers : List String
  allDetails : List (List String)
  status : String
  progress : Nat
  total : Nat
  current : Nat
  deriving DecidableEq, Repr

/-- Model of `process_tickers_background` (src/app.py lines 253-311), with the
per-ticker evaluation abstracted as a fallible `evalTicker`: iterate the
tickers in order, then save the results and mark the job completed with
progress 100. -/
def process_tickers_background (evalTicker : String → Except PyExc EvalResult)
    (tickers : List String) : JobOutcome :=
  let total := tickers.length
  let fin := processLoop evalTicker total 0 tickers ⟨[], [], [], 0, 0⟩
  { results := fin.results
    buyTickers := fin.buyTickers
    allDetails := fin.allDetails
    status := "completed"
    progress := 100
    total := total
    current := fin.current }

/-- Python `str.split(',')` on character lists. -/
def splitOnComma : List Char → List (List Char)
  | [] => [[]]
  | c :: rest =>
    if c = ',' then [] :: splitOnComma rest
    else
      match splitOnComma rest with
      | [] => [[c]]
      | g :: gs => (c :: g) :: gs

/-- Python `str.strip()`: drop leading and trailing whitespace. -/
def stripChars (s : List Char) : List Char :=
  ((s.dropWhile Char.isWhitespace).reverse.dropWhile Char.isWhitespace).reverse

/-- Model of `[t.strip().upper() for t in tickers_input.split(',') if t.strip()]`
(src/app.py line 353). -/
def parse_tickers (s : List Char) : List (List Char) :=
  ((splitOnComma s).filter (fun t => stripChars t ≠ [])).map
    (fun t => (stripChars t).map Char.toUpper)

/-- Response of the `/analyze` endpoint: a synchronous 400 rejection, or
a background job started on the parsed ticker list and benchmark. -/
inductive AnalyzeResponse : Type
  | badRequest (message : String)
  | jobStarted (tickers : List (List Char)) (benchmark : ℚ)
  deriving DecidableEq, Repr

/-- The `/analyze` handler (src/app.py lines 345-372): reject when either
stripped form field is empty or the benchmark does not parse as a float
(`parseFloat` models `float(...)`, `none` being a `ValueError`);
otherwise start the background job. -/
def analyze (tickersInput benchmarkInput : List Char)
    (parseFloat : List Char → Option ℚ) : AnalyzeResponse :=
  let ti := stripChars tickersInput
  let bi := stripChars benchmarkInput
  if ti = [] ∨ bi = [] then
    AnalyzeResponse.badRequest "Please provide both tickers and benchmark forward PE."
  else
    match parseFloat bi with
    | none =>
      AnalyzeResponse.badRequest "Please enter a valid numeric benchmark forward PE."
    | some b => AnalyzeResponse.jobStarted (parse_tickers ti) b

/-- A ticker evaluator whose evaluation of "BBB" raises and which
evaluates every other ticker normally. -/
def evalFailBBB : String → Except PyExc EvalResult :=
  fun t =>
    if t = "BBB" then Except.error PyExc.otherExc
    else Except.ok ([t, "✔️", "✔️", "✔️", "✔️", "✔️"], true, [t])

/-- A ticker evaluator that never raises. -/
def evalAllOk : String → Except PyExc EvalResult :=
  fun t => Except.ok ([t, "✔️", "✔️", "✔️", "✔️", "✔️"], true, [t])

/-- A float parser accepting exactly the text "25". -/
def parseFloat25 : List Char → Option ℚ :=
  fun s => if s = ['2', '5'] then some 25 else none

lemma fetchAux_result_ok (truthy : α → Bool) (f : Nat → Outcome α)
    (maxRetries : Nat) (initialDelay : ℚ) (attempt fuel : Nat) :
    ∃ o, (fetchAux truthy f maxRetries initialDelay attempt fuel).result =
      Except.ok o := by
  induction fuel generalizing attempt with
  | zero => exact ⟨none, rfl⟩
  | succ fuel ih =>
    rw [fetchAux]
    rcases h : f attempt with v | e
    · by_cases ht : truthy v
      · exact ⟨some v, by simp [ht]⟩
      · by_cases ha : attempt < maxRetries - 1
        · obtain ⟨o, ho⟩ := ih (attempt + 1)
          exact ⟨o, by simp [ht, ha, FetchResult.addCall, ho]⟩
        · obtain ⟨o, ho⟩ := ih (attempt + 1)
          exact ⟨o, by simp [ht, ha, FetchResult.addCall, ho]⟩
    · rcases e with status | _ | _ | _
      · by_cases hs : status = 429
        · by_cases ha : attempt < maxRetries - 1
          · obtain ⟨o, ho⟩ := ih (attempt + 1)
            exact ⟨o, by simp [hs, ha, FetchResult.addCall, ho]⟩
          · exact ⟨none, by simp [hs, ha]⟩
        · by_cases ha : attempt < maxRetries - 1
          · obtain ⟨o, ho⟩ := ih (attempt + 1)
            exact ⟨o, by simp [hs, ha, FetchResult.addCall, ho]⟩
          · exact ⟨none, by simp [hs, ha]⟩
      · by_cases ha : attempt < maxRetries - 1
        · obtain ⟨o, ho⟩ := ih (attempt + 1)
          exact ⟨o, by simp [ha, FetchResult.addCall, ho]⟩
        · exact ⟨none, by simp [ha]⟩
      · by_cases ha : attempt < maxRetries - 1
        · obtain ⟨o, ho⟩ := ih (attempt + 1)
          exact ⟨o, by simp [ha, FetchResult.addCall, ho]⟩
        · exact ⟨none, by simp [ha]⟩
      · by_cases ha : attempt < maxRetries - 1
        · obtain ⟨o, ho⟩ := ih (attempt + 1)
          exact ⟨o, by simp [ha, FetchResult.addCall, ho]⟩
        · exact ⟨none, by simp [ha]⟩

lemma fetchAux_some_truthy (truthy : α → Bool) (f : Nat → Outcome α)
    (maxRetries : Nat) (initialDelay : ℚ) (attempt fuel : Nat) (v : α)
    (h : (fetchAux truthy f maxRetries initialDelay attempt fuel).result =
      Except.ok (some v)) : truthy v = true := by
  induction fuel generalizing attempt with
  | zero => simp [fetchAux] at h
  | succ fuel ih =>
    rw [fetchAux] at h
    rcases hf : f attempt with w | e <;> rw [hf] at h
    · by_cases ht : truthy w
      · simp [ht] at h
        rwa [h] at ht
      · by_cases ha : attempt < maxRetries - 1 <;>
          simp [ht, ha, FetchResult.addCall] at h <;>
          exact ih (attempt + 1) h
    · rcases e with status | _ | _ | _
      · by_cases hs : status = 429 <;> by_cases ha : attempt < maxRetries - 1 <;>
          simp [hs, ha, FetchResult.addCall] at h <;>
          exact ih (attempt + 1) h
      · by_cases ha : attempt < maxRetries - 1 <;>
          simp [ha, FetchResult.addCall] at h <;>
          exact ih (attempt + 1) h
      · by_cases ha : attempt < maxRetries - 1 <;>
          simp [ha, FetchResult.addCall] at h <;>
          exact ih (attempt + 1) h
      · by_cases ha : attempt < maxRetries - 1 <;>
          simp [ha, FetchResult.addCall] at h <;>
          exact ih (attempt + 1) h

end StockAnalyzer

/-- C2: for every operation callable (any truthiness predicate, any
outcome sequence of successes, empty results, rate-limit errors, HTTP
errors, request errors or other exceptions) and any retry budget,
`fetch_with_retry` never propagates an exception: its result is always an
ordinary return value (`Except.ok`), which on failure is `none`. -/
theorem fetch_with_retry_no_exception {α : Type} (truthy : α → Bool)
    (f : Nat → StockAnalyzer.Outcome α) (maxRetries : Nat) (initialDelay : ℚ) :
    ∃ o, (StockAnalyzer.fetch_with_retry truthy f maxRetries initialDelay).result =
      Except.ok o :=
  StockAnalyzer.fetchAux_result_ok truthy f maxRetries initialDelay 0 maxRetries

/-- C10: every non-`none` value returned by `fetch_with_retry` is truthy:
a falsy return value of the operation is never delivered to the caller,
so a legitimately empty provider response can never be returned as a
success. -/
theorem fetch_with_retry_some_truthy {α : Type} (truthy : α → Bool)
    (f : Nat → StockAnalyzer.Outcome α) (maxRetries : Nat) (initialDelay : ℚ)
    (v : α)
    (h : (StockAnalyzer.fetch_with_retry truthy f maxRetries initialDelay).result =
      Except.ok (some v)) : truthy v = true :=
  StockAnalyzer.fetchAux_some_truthy truthy f maxRetries initialDelay 0 maxRetries v h

/-- Witness for C10: a callable that immediately returns the truthy value
`5` makes `fetch_with_retry` return `some 5`, and the theorem yields its
truthiness. -/
theorem fetch_with_retry_some_truthy_witness :
    (fun n : Nat => decide (n ≠ 0)) 5 = true :=
  fetch_with_retry_some_truthy (fun n => decide (n ≠ 0))
    (fun _ => StockAnalyzer.Outcome.ok 5) 5 3 5 (by rfl)

/-- C9: an operation that raises HTTP 429 on every invocation, run with
`maxRetries = 3`, yields a `none` result after exactly 3 invocations
(2 retries after the first call), sleeping `initialDelay * 2 ^ attempt`
before each retry. -/
theorem fetch_with_retry_rate_limited {α : Type} (truthy : α → Bool)
    (initialDelay : ℚ) :
    StockAnalyzer.fetch_with_retry truthy
        (fun _ => StockAnalyzer.Outcome.raise (StockAnalyzer.PyExc.httpError 429))
        3 initialDelay =
      ⟨Except.ok none, 3,
        [initialDelay * 2 ^ 0, initialDelay * 2 ^ 1]⟩ := by
  simp [StockAnalyzer.fetch_with_retry, StockAnalyzer.fetchAux,
    StockAnalyzer.FetchResult.addCall]

open StockAnalyzer

/-- C7 (confirmed): condition 4 is Pass iff the forward P/E is present and
strictly below the benchmark; `P == B` gives ordinary Fail, and an absent
forward P/E gives FailMissingData. -/
theorem cond4_spec (P : Option ℚ) (B : ℚ) :
    (cond4 P B = ConditionResult.pass ↔ ∃ p, P = some p ∧ p < B)
    ∧ cond4 (some B) B = ConditionResult.fail
    ∧ cond4 none B = ConditionResult.failMissingData := by
  refine ⟨?_, by simp [cond4], rfl⟩
  rcases P with _ | p
  · simp [cond4]
  · simp only [cond4, Option.some.injEq]
    constructor
    · intro h
      by_cases hb : B ≤ p
      · simp [hb] at h
      · exact ⟨p, rfl, not_le.1 hb⟩
    · rintro ⟨q, hq, hlt⟩
      rw [← hq] at hlt
      simp [not_le.2 hlt]

/-- C8 (confirmed): for ownership percentages `i, j ∈ [0,100]` (raw
provider fractions `i/100`, `j/100`), condition 5 is Pass iff
`i + j ≥ 70` (the boundary `i + j = 70` passes), and a missing insider or
institutional fraction yields FailMissingData. -/
theorem cond5_spec (i j : ℚ) (hi0 : 0 ≤ i) (hi1 : i ≤ 100)
    (hj0 : 0 ≤ j) (hj1 : j ≤ 100) :
    (cond5 (get_ownership_data (some (i / 100)) (some (j / 100))).1 =
        ConditionResult.pass ↔ 70 ≤ i + j)
    ∧ (∀ oj, cond5 (get_ownership_data none oj).1 =
        ConditionResult.failMissingData)
    ∧ (∀ oi, cond5 (get_ownership_data oi none).1 =
        ConditionResult.failMissingData) := by
  refine ⟨?_, fun oj => by cases oj <;> rfl, fun oi => by cases oi <;> rfl⟩
  have htot : i / 100 * 100 + j / 100 * 100 = i + j := by ring
  simp only [get_ownership_data, htot, cond5]
  by_cases h : i + j < 70
  · simp [h, not_le.2 h]
  · simp [h, not_lt.1 h]

/-- Witness for C8 at `(i, j) = (40, 30)`: the boundary total 70 passes. -/
theorem cond5_spec_witness :
    cond5 (get_ownership_data (some ((40 : ℚ) / 100)) (some ((30 : ℚ) / 100))).1 =
      ConditionResult.pass :=
  (cond5_spec 40 30 (by norm_num) (by norm_num) (by norm_num) (by norm_num)).1.mpr
    (by norm_num)

/-- Counterexample to C3 as stated: a fetched recommendation record with
all counts zero has `totalRatings = 0`, yet the code defines
`buyPercentage = 0` (it is not unavailable) and condition 1 is an
ordinary Fail, not FailMissingData. -/
theorem cond1_zero_ratings_counterexample :
    get_analyst_ratings_finnhub [⟨0, 0, 0, 0, 0⟩] = (some 0, 0)
    ∧ cond1 (get_analyst_ratings_finnhub [⟨0, 0, 0, 0, 0⟩]).1 =
        ConditionResult.fail := by
  constructor
  · rfl
  · decide

/-- C3 (amended): condition 1 is FailMissingData exactly when the
recommendation fetch yields no record (empty/`None` result); whenever a
record is fetched — including one with `totalRatings = 0`, whose buy
percentage is the number 0 — the condition is Pass iff the computed buy
percentage is ≥ 70, and otherwise an ordinary Fail. -/
theorem cond1_spec (recs : List RecommendationRecord) :
    (cond1 (get_analyst_ratings_finnhub recs).1 =
        ConditionResult.failMissingData ↔ recs = [])
    ∧ (cond1 (get_analyst_ratings_finnhub recs).1 = ConditionResult.pass ↔
        ∃ bp, (get_analyst_ratings_finnhub recs).1 = some bp ∧ 70 ≤ bp) := by
  rcases recs with _ | ⟨r, rest⟩
  · simp [get_analyst_ratings_finnhub, cond1]
  · obtain ⟨bp, hbp⟩ : ∃ bp, (get_analyst_ratings_finnhub (r :: rest)).1 = some bp :=
      ⟨_, rfl⟩
    rw [hbp]
    by_cases hb : bp < 70
    · refine ⟨iff_of_false (by simp [cond1, hb]) (by simp),
        iff_of_false (by simp [cond1, hb]) ?_⟩
      rintro ⟨bp', hbp', hle⟩
      injection hbp' with h
      subst h
      exact absurd hb (not_lt.2 hle)
    · exact ⟨iff_of_false (by simp [cond1, hb]) (by simp),
        iff_of_true (by simp [cond1, hb]) ⟨bp, rfl, not_lt.1 hb⟩⟩

/-- Counterexample to C1 as stated: with `currentPrice` missing the code
substitutes 0, so a present mean 100 and low 50 make condition 3 Pass
(the claim demands Fail on any missing value); and with `lowPrice`
missing while the mean exceeds the threshold, the comparison
`low_price < current_price` raises a `TypeError` (the claim rules out a
crash). -/
theorem cond3_counterexample :
    cond3 (some 100) (some 50) none = Except.ok ConditionResult.pass
    ∧ cond3 (some 100) none (some 10) = Except.error PyExc.typeError := by
  constructor <;> norm_num [cond3]

lemma cond3_cases (mean low cur : Option ℚ) :
    cond3 mean low cur =
      match mean with
      | none => Except.ok ConditionResult.fail
      | some m =>
        if m ≤ cur.getD 0 * (23 / 20) then Except.ok ConditionResult.fail
        else
          match low with
          | none => Except.error PyExc.typeError
          | some l =>
            if l < cur.getD 0 then Except.ok ConditionResult.fail
            else Except.ok ConditionResult.pass := by
  rcases cur with _ | c
  · rfl
  · by_cases hc : c = 0 <;> simp [cond3, hc]

/-- C1 (amended): condition 3 never yields FailMissingData; it is Pass iff
both the mean and the low target price are present, the mean strictly
exceeds 1.15 times the effective current price (the fetched current
price, with 0 substituted when it is missing or zero — so a ticker with a
missing current price can still Pass), and the low target is at least the
effective current price; and the check raises a `TypeError` (crashing
that ticker's evaluation, recovered only at the orchestrator) exactly
when the low target is missing while the mean is present and above the
1.15 threshold. -/
theorem cond3_spec (mean low cur : Option ℚ) :
    (cond3 mean low cur = Except.ok ConditionResult.pass ↔
      ∃ m l, mean = some m ∧ low = some l ∧
        cur.getD 0 * (23 / 20) < m ∧ cur.getD 0 ≤ l)
    ∧ cond3 mean low cur ≠ Except.ok ConditionResult.failMissingData
    ∧ ((∃ e, cond3 mean low cur = Except.error e) ↔
      low = none ∧ ∃ m, mean = some m ∧ cur.getD 0 * (23 / 20) < m) := by
  have h := cond3_cases mean low cur
  rcases mean with _ | m
  · rw [h]
    exact ⟨by simp, by simp, by simp⟩
  · rcases low with _ | l
    · rw [h]
      dsimp only
      by_cases h1 : m ≤ cur.getD 0 * (23 / 20)
      · rw [if_pos h1]
        refine ⟨by simp, by simp, ?_⟩
        refine iff_of_false (by simp) ?_
        rintro ⟨-, m', hm, hlt⟩
        injection hm with hm
        subst hm
        exact absurd hlt (not_lt.2 h1)
      · rw [if_neg h1]
        refine ⟨?_, by simp, ?_⟩
        · refine iff_of_false (by simp) ?_
          rintro ⟨m', l', -, hl, -, -⟩
          exact Option.noConfusion hl
        · exact iff_of_true ⟨PyExc.typeError, rfl⟩ ⟨rfl, m, rfl, not_le.1 h1⟩
    · rw [h]
      dsimp only
      by_cases h1 : m ≤ cur.getD 0 * (23 / 20)
      · rw [if_pos h1]
        refine ⟨?_, by simp, by simp⟩
        refine iff_of_false (by simp) ?_
        rintro ⟨m', l', hm, hl, hlt, hle⟩
        injection hm with hm
        subst hm
        exact absurd hlt (not_lt.2 h1)
      · rw [if_neg h1]
        by_cases h2 : l < cur.getD 0
        · rw [if_pos h2]
          refine ⟨?_, by simp, by simp⟩
          refine iff_of_false (by simp) ?_
          rintro ⟨m', l', hm, hl, hlt, hle⟩
          injection hl with hl
          subst hl
          exact absurd hle (not_le.2 h2)
        · rw [if_neg h2]
          refine ⟨?_, by simp, by simp⟩
          exact iff_of_true rfl ⟨m, l, rfl, rfl, not_le.1 h1, not_lt.1 h2⟩

lemma processLoop_results (evalTicker : String → Except PyExc EvalResult)
    (total : Nat) (tickers : List String) (i : Nat) (st : RunState) :
    (processLoop evalTicker total i tickers st).results =
      st.results ++ tickers.map (fun t =>
        match evalTicker t with
        | Except.ok r => r.1
        | Except.error _ => placeholderRow t) := by
  induction tickers generalizing i st with
  | nil => simp [processLoop]
  | cons t rest ih =>
    rw [processLoop, ih]
    rcases ht : evalTicker t with e | r
    · simp [processStep, ht]
    · obtain ⟨row, met, det⟩ := r
      simp [processStep, ht]

/-- C6 (confirmed): the orchestrator produces exactly one record per
input ticker, in input order: a ticker whose evaluation raises
contributes the all-Fail placeholder row (ticker name plus 5 Fail
markers), and every other ticker contributes its normal evaluation
row. -/
theorem process_results_per_ticker
    (evalTicker : String → Except PyExc EvalResult) (tickers : List String) :
    (process_tickers_background evalTicker tickers).results =
      tickers.map (fun t =>
        match evalTicker t with
        | Except.ok r => r.1
        | Except.error _ => placeholderRow t) := by
  have h := processLoop_results evalTicker tickers.length tickers 0 ⟨[], [], [], 0, 0⟩
  simpa using h

/-- Counterexample to C4 as stated: when the last ticker's evaluation
raises, the run still terminates with status `completed` (and progress
100), but the completed counter `current` stays at 1 while `total` is 2 —
the claim `completed == total` fails. -/
theorem process_completed_counter_counterexample :
    (process_tickers_background evalFailBBB ["AAA", "BBB"]).status = "completed"
    ∧ (process_tickers_background evalFailBBB ["AAA", "BBB"]).progress = 100
    ∧ (process_tickers_background evalFailBBB ["AAA", "BBB"]).total = 2
    ∧ (process_tickers_background evalFailBBB ["AAA", "BBB"]).current = 1 :=
  ⟨rfl, rfl, rfl, rfl⟩

lemma processLoop_current_all_ok (evalTicker : String → Except PyExc EvalResult)
    (total : Nat) (tickers : List String) (i : Nat) (st : RunState)
    (h : ∀ t ∈ tickers, ∃ r, evalTicker t = Except.ok r) :
    (processLoop evalTicker total i tickers st).current =
      if tickers.isEmpty then st.current else i + tickers.length := by
  induction tickers generalizing i st with
  | nil => simp [processLoop]
  | cons t rest ih =>
    obtain ⟨r, hr⟩ := h t (List.mem_cons_self t rest)
    obtain ⟨row, met, det⟩ := r
    have hrest : ∀ t' ∈ rest, ∃ r', evalTicker t' = Except.ok r' :=
      fun t' ht' => h t' (List.mem_cons_of_mem t ht')
    rw [processLoop, ih _ _ hrest]
    rcases rest with _ | ⟨t2, rest2⟩
    · simp [processStep, hr]
    · simp only [List.isEmpty_cons, List.length_cons, Bool.false_eq_true,
        if_false]
      omega

/-- C4 (amended): every run terminates with status `completed`, progress
100 and `total` equal to the number of input tickers; the completed
counter `current` also equals `total` whenever no ticker's evaluation
raises (the exception path skips the counter update, so with a raising
trailing ticker `current` stays below `total`). -/
theorem process_done_spec (evalTicker : String → Except PyExc EvalResult)
    (tickers : List String)
    (h : ∀ t ∈ tickers, ∃ r, evalTicker t = Except.ok r) :
    (process_tickers_background evalTicker tickers).status = "completed"
    ∧ (process_tickers_background evalTicker tickers).progress = 100
    ∧ (process_tickers_background evalTicker tickers).total = tickers.length
    ∧ (process_tickers_background evalTicker tickers).current = tickers.length := by
  refine ⟨rfl, rfl, rfl, ?_⟩
  have hcur := processLoop_current_all_ok evalTicker tickers.length tickers 0
    ⟨[], [], [], 0, 0⟩ h
  have hdef : (process_tickers_background evalTicker tickers).current =
      (processLoop evalTicker tickers.length 0 tickers ⟨[], [], [], 0, 0⟩).current := rfl
  rw [hdef, hcur]
  rcases tickers with _ | ⟨t, rest⟩ <;> simp

/-- Witness for C4: a two-ticker run whose evaluations never raise ends
completed with `current = 2`. -/
theorem process_done_spec_witness :
    (process_tickers_background evalAllOk ["AAA", "BBB"]).status = "completed"
    ∧ (process_tickers_background evalAllOk ["AAA", "BBB"]).current = 2 := by
  have h := process_done_spec evalAllOk ["AAA", "BBB"]
    (fun t _ => ⟨([t, "✔️", "✔️", "✔️", "✔️", "✔️"], true, [t]), rfl⟩)
  exact ⟨h.1, h.2.2.2⟩

/-- Counterexample to C5 as stated: the form input `","` is non-empty, so
it passes validation, yet it parses to an empty ticker list — a
background job is started for an empty ticker list instead of being
rejected. -/
theorem analyze_empty_list_counterexample :
    analyze [','] ['2', '5'] parseFloat25 = AnalyzeResponse.jobStarted [] 25 := by
  decide

/-- C5 (amended): a malformed (non-parsing) benchmark or an empty or
whitespace-only form field is rejected synchronously with a 400 response
and no job starts; a job starts exactly when both stripped fields are
non-empty and the benchmark parses, and then it runs on the parsed ticker
list — which may be empty when the non-empty input contains no non-blank
ticker token. -/
theorem analyze_spec (tickersInput benchmarkInput : List Char)
    (parseFloat : List Char → Option ℚ) (ts : List (List Char)) (b : ℚ)
    (h : analyze tickersInput benchmarkInput parseFloat =
      AnalyzeResponse.jobStarted ts b) :
    stripChars tickersInput ≠ [] ∧ stripChars benchmarkInput ≠ []
    ∧ parseFloat (stripChars benchmarkInput) = some b
    ∧ ts = parse_tickers (stripChars tickersInput) := by
  unfold analyze at h
  by_cases he : stripChars tickersInput = [] ∨ stripChars benchmarkInput = []
  · rw [if_pos he] at h
    exact absurd h (by simp)
  · rw [if_neg he] at h
    push_neg at he
    rcases hp : parseFloat (stripChars benchmarkInput) with _ | b'
    · rw [hp] at h
      exact absurd h (by simp)
    · rw [hp] at h
      injection h with h1 h2
      exact ⟨he.1, he.2, congrArg some h2, h1.symm⟩

/-- Witness for C5: the input `"AAPL"` with benchmark `"25"` starts a job
on the parsed list, and the theorem recovers the parse facts. -/
theorem analyze_spec_witness :
    stripChars ['A', 'A', 'P', 'L'] ≠ []
    ∧ parseFloat25 (stripChars ['2', '5']) = some 25 := by
  have h := analyze_spec ['A', 'A', 'P', 'L'] ['2', '5'] parseFloat25
    [['A', 'A', 'P', 'L']] 25 (by decide)
  exact ⟨h.1, h.2.2.1⟩
